import Mathlib

/-!
Verification development for the PantryFlow food-tracker server
(`server.js` plus its MySQL schema). The definitions below are a shallow
embedding of the three rule engines of the repository:

* the price-history logger `logPriceHistory` together with the MySQL
  `UNIQUE KEY unique_price_entry (item_name, item_brand, recorded_at)`
  upsert semantics of `INSERT ... ON DUPLICATE KEY UPDATE`;
* the price-difference lookup of `GET /api/price-tracker/difference`
  (`findClosestPrice` and the surrounding route);
* the spending aggregator of `GET /api/stats/spending`;
* the reminder engine `checkExpirationAndGenerateReminders`.

Calendar dates (`DATE` columns, `purchase_date`, `recorded_at`,
`best_by_date`, `CURDATE()`) are embedded as integer day numbers (days
since the Unix epoch). Wall-clock instants (`new Date()`, `TIMESTAMP`
columns) are embedded as rationals on the same day scale, so that the
JavaScript expression `(bestBy.getTime() - now.getTime()) / 86400000`
becomes the rational `bestBy - now`. Prices (`DECIMAL(10,2)`) are embedded
as integers; no claim depends on fractional cents.
-/

/-- One row of the `price_history` table: item name, nullable brand,
price and the recorded calendar day (`recorded_at`, which the server fills
with the purchase date of the item). -/
structure PHRow where
  name : String
  brand : Option String
  price : Int
  day : Int
  deriving DecidableEq, Repr

/-- The brand normalization of `logPriceHistory` (server.js line 147):
`const dbBrand = (brand === undefined || brand === '') ? null : brand`.
`none` stands for the JavaScript `undefined`/`null` inputs, both of which
end up as SQL NULL. -/
def dbBrandOf (brand : Option String) : Option String :=
  match brand with
  | none => none
  | some s => if s = "" then none else some s

/-- Duplicate-key test of the MySQL unique index
`unique_price_entry (item_name, item_brand, recorded_at)`. In MySQL a
`UNIQUE` index permits any number of NULLs in a nullable column: an index
tuple containing NULL never counts as a duplicate of any other tuple.
Hence two rows collide exactly when the names and days agree and the
brands are both non-NULL and equal. -/
def keyConflict (r s : PHRow) : Bool :=
  r.name == s.name
    && (match r.brand, s.brand with
        | some a, some b => a == b
        | _, _ => false)
    && r.day == s.day

/-- `INSERT ... ON DUPLICATE KEY UPDATE price = VALUES(price)` on the
`price_history` table: if the new row collides with an existing row under
`unique_price_entry`, that row keeps its key and takes the new price;
otherwise the new row is appended. -/
def upsertPH (ledger : List PHRow) (row : PHRow) : List PHRow :=
  match ledger with
  | [] => [row]
  | r :: rs =>
      if keyConflict r row then { r with price := row.price } :: rs
      else r :: upsertPH rs row

/-- `logPriceHistory(name, brand, price, purchase_date)` of server.js
lines 143-160: a no-op for non-positive prices, otherwise an upsert of the
normalized row into the ledger. -/
def logPriceHistory (name : String) (brand : Option String) (price : Int)
    (day : Int) (ledger : List PHRow) : List PHRow :=
  if price ≤ 0 then ledger
  else upsertPH ledger ⟨name, dbBrandOf brand, price, day⟩

/-- The MySQL null-safe equality `<=>` used on `item_brand` by
`findClosestPrice`: NULL `<=>` NULL is true, NULL against a value is
false, and two values compare as ordinary equality. -/
def nullSafeEq (a b : Option String) : Bool :=
  match a, b with
  | none, none => true
  | some x, some y => x == y
  | _, _ => false

/-- Brand normalization of the difference route (server.js lines 497-500
and 516): the literal string "null" (which the frontend sends when no
brand is selected) and the empty string become SQL NULL. A completely
absent query parameter is not modelled: it would stay `undefined` in the
route and be rejected by the database driver before any comparison. -/
def lookupNormBrand (s : String) : Option String :=
  if s = "null" || s = "" then none else some s

/-- The row filter of the `findClosestPrice` query:
`WHERE item_name = ? AND item_brand <=> ? AND recorded_at <= ?`. -/
def phMatch (name : String) (dbBrand : Option String) (target : Int)
    (r : PHRow) : Bool :=
  r.name == name && nullSafeEq r.brand dbBrand && decide (r.day ≤ target)

/-- `ORDER BY recorded_at DESC LIMIT 1` over a result set: a row with the
maximal recorded day, or `none` for an empty result set. -/
def pickLatest : List PHRow → Option PHRow
  | [] => none
  | r :: rs =>
      match pickLatest rs with
      | none => some r
      | some b => if b.day > r.day then some b else some r

/-- The `findClosestPrice` helper of the difference route (server.js
lines 503-520): latest ledger row for the item with `recorded_at` on or
before the target date. -/
def findClosestPrice (ledger : List PHRow) (name : String)
    (dbBrand : Option String) (target : Int) : Option PHRow :=
  pickLatest (ledger.filter (phMatch name dbBrand target))

/-- Failure modes of `GET /api/price-tracker/difference`: the 404
responses naming the boundary (start or end) and the requested date. -/
inductive PDError where
  | notFoundStart (name : String) (date : Int)
  | notFoundEnd (name : String) (date : Int)
  deriving DecidableEq, Repr

/-- Success payload of the difference route: the actual recorded dates
used for each boundary, both prices and their signed difference. -/
structure PDResult where
  startDate : Int
  endDate : Int
  startPrice : Int
  endPrice : Int
  difference : Int
  deriving DecidableEq, Repr

/-- The `GET /api/price-tracker/difference` route body (server.js lines
489-551) after parameter validation: normalize the brand, resolve both
boundary dates with `findClosestPrice`, 404 naming the failing boundary,
otherwise report both rows and `difference = endPrice - startPrice`. -/
def priceDifference (ledger : List PHRow) (name : String)
    (brandQuery : String) (startDate endDate : Int) :
    Except PDError PDResult :=
  let brand := lookupNormBrand brandQuery
  match findClosestPrice ledger name brand startDate with
  | none => Except.error (PDError.notFoundStart name startDate)
  | some ps =>
      match findClosestPrice ledger name brand endDate with
      | none => Except.error (PDError.notFoundEnd name endDate)
      | some pe =>
          Except.ok ⟨ps.day, pe.day, ps.price, pe.price, pe.price - ps.price⟩

/-- The `period = 'week'` branch of `GET /api/stats/spending` (server.js
lines 388-430): `SELECT SUM(price) FROM price_history ph WHERE
ph.recorded_at >= DATE_SUB(CURDATE(), INTERVAL 7 DAY)`, with a NULL sum
over an empty result set read back as 0. Note the filter has a lower
bound only. -/
def totalSpentWeek (ledger : List PHRow) (today : Int) : Int :=
  ((ledger.filter (fun r => decide (today - 7 ≤ r.day))).map (·.price)).sum

/-- Modelled from the spec: the spec reads the week window as the closed
interval from `now - 7 days` to `now`, so that entries recorded on a day
later than now do not contribute. Stated as a second definition to be
compared with `totalSpentWeek`, which embeds the SQL actually run. -/
def specTotalSpentWeek (ledger : List PHRow) (today : Int) : Int :=
  ((ledger.filter
      (fun r => decide (today - 7 ≤ r.day) && decide (r.day ≤ today))).map
    (·.price)).sum

/-- An inventory item as seen by the reminder engine: primary key, name
and best-by calendar day. The other `items` columns play no role in the
sweep. -/
structure Item where
  id : Nat
  name : String
  best_by_date : Int
  deriving DecidableEq, Repr

/-- One row of the `reminders` table as handled by the sweep: referenced
item, denormalized item name, message text, closed flag and creation
timestamp. The AUTO_INCREMENT primary key is not modelled: the sweep
never consults it. -/
structure Reminder where
  item_id : Nat
  item_name : String
  message : String
  is_closed : Bool
  created_at : ℚ
  deriving DecidableEq, Repr

/-- Civil date of a day number (days since 1970-01-01), used to render
`best_by_date.toISOString().split('T')[0]`. This is the standard
days-to-civil conversion on the proleptic Gregorian calendar. -/
def civilOfDay (day : Int) : Int × Int × Int :=
  let z := day + 719468
  let era := Int.fdiv z 146097
  let doe := z - era * 146097
  let yoe :=
    Int.fdiv (doe - Int.fdiv doe 1460 + Int.fdiv doe 36524 - Int.fdiv doe 146096) 365
  let y := yoe + era * 400
  let doy := doe - (365 * yoe + Int.fdiv yoe 4 - Int.fdiv yoe 100)
  let mp := Int.fdiv (5 * doy + 2) 153
  let d := doy - Int.fdiv (153 * mp + 2) 5 + 1
  let m := mp + (if mp < 10 then 3 else -9)
  (y + (if m ≤ 2 then 1 else 0), m, d)

/-- Two-digit zero padding for months and days of an ISO date. -/
def pad2 (n : Int) : String :=
  if n < 10 then "0" ++ toString n else toString n

/-- The `YYYY-MM-DD` rendering of a day number, as produced by the
JavaScript `toISOString().split('T')[0]` on a date at midnight. -/
def dayToIso (day : Int) : String :=
  match civilOfDay day with
  | (y, m, d) => toString y ++ "-" ++ pad2 m ++ "-" ++ pad2 d

/-- `Math.ceil((bestBy.getTime() - new Date().getTime()) / (1000*60*60*24))`
of server.js line 107, on the rational day scale: the best-by date sits at
midnight (an integer day) and `now` is the current instant. -/
def diffDaysOf (bestBy : Int) (now : ℚ) : Int :=
  Int.ceil ((bestBy : ℚ) - now)

/-- The reminder message computed for an item by the sweep (server.js
lines 106-116): past-due alert, expires-today warning or
expires-in-N-days warning, keyed on the sign of `diffDays`. -/
def msgFor (it : Item) (now : ℚ) : String :=
  let diffDays := diffDaysOf it.best_by_date now
  if diffDays < 0 then
    "🚨 ALERT: " ++ it.name ++ " is PAST its best-by date ("
      ++ dayToIso it.best_by_date ++ ")."
  else if diffDays = 0 then
    "⚠️ WARNING: " ++ it.name ++ " expires TODAY!"
  else
    "⚠️ WARNING: " ++ it.name ++ " expires in " ++ toString diffDays ++ " day(s)."

/-- Step 1 of the sweep (server.js line 97): `DELETE FROM reminders WHERE
is_closed = TRUE AND created_at < ?` with the one-month-ago cutoff. The
rows that survive are exactly those that are open or not strictly older
than the cutoff. -/
def purgeReminders (cutoff : ℚ) (rems : List Reminder) : List Reminder :=
  rems.filter (fun r => !(r.is_closed && decide (r.created_at < cutoff)))

/-- Step 2 of the sweep (server.js lines 100-103): `SELECT id, name,
best_by_date FROM items WHERE DATEDIFF(best_by_date, CURDATE()) <= 3`,
with `CURDATE()` the floor of the current instant on the day scale. -/
def expiringItems (items : List Item) (now : ℚ) : List Item :=
  items.filter (fun it => decide (it.best_by_date - Int.floor now ≤ 3))

/-- The dedup check of the sweep (server.js lines 119-122): an existing
reminder blocks an insert exactly when it has the same `item_id`, the
same message text, and `is_closed = FALSE`. -/
def openMatch (i : Nat) (m : String) (r : Reminder) : Bool :=
  r.item_id == i && r.message == m && !r.is_closed

/-- Steps 3-4 of the sweep (server.js lines 105-133): for each expiring
item compute its message and insert a fresh open reminder unless an open
reminder with the same item and message already exists. The items all
have distinct primary keys, so the sequential fold has the same visible
effect as the `Promise.all` of the source. -/
def insertReminders (now : ℚ) (acc : List Reminder) : List Item → List Reminder
  | [] => acc
  | it :: rest =>
      let msg := msgFor it now
      if acc.any (openMatch it.id msg) then insertReminders now acc rest
      else insertReminders now (acc ++ [⟨it.id, it.name, msg, false, now⟩]) rest

/-- One full sweep `checkExpirationAndGenerateReminders()` (server.js
lines 90-138): purge old closed reminders, then scan and insert. `cutoff`
stands for the `ONE_MONTH_AGO` timestamp the source computes by rolling
the current date back one calendar month. -/
def checkExpirationAndGenerateReminders (now cutoff : ℚ) (items : List Item)
    (rems : List Reminder) : List Reminder :=
  insertReminders now (purgeReminders cutoff rems) (expiringItems items now)

/-- Number of open reminders for a given (item, message) pair. -/
def openCount (l : List Reminder) (i : Nat) (m : String) : Nat :=
  (l.filter (openMatch i m)).length

/-- Outcome of one awaited database call in a route handler: either a
resolved value or a rejection. -/
inductive DbResult (α : Type) where
  | ok (a : α)
  | err (msg : String)
  deriving DecidableEq, Repr

/-- The try/catch of `logPriceHistory` (server.js lines 149-159): a
rejected insert is caught, logged and discarded, so the call as awaited
by the route always resolves. -/
def logPriceHistoryCaught (r : DbResult Unit) : DbResult Unit :=
  match r with
  | DbResult.ok a => DbResult.ok a
  | DbResult.err _ => DbResult.ok ()

/-- The try/catch of `checkExpirationAndGenerateReminders` (server.js
lines 95-137): any failure of the purge, scan or inserts is caught and
logged inside the function, so the call as awaited by the route always
resolves. -/
def checkExpirationCaught (r : DbResult Unit) : DbResult Unit :=
  match r with
  | DbResult.ok a => DbResult.ok a
  | DbResult.err _ => DbResult.ok ()

/-- HTTP status produced by `POST /api/items` (server.js lines 185-226)
after validation, as a function of the outcomes of its three awaited
database effects: the item INSERT, the price-history logging and the
reminder sweep. A rejection of any awaited call would land in the route
catch and produce 500; the two side-effect calls are wrapped in their own
catch, so only the item write can reject. -/
def postItemStatus (insertRes : DbResult Nat)
    (priceLogRes sweepRes : DbResult Unit) : Nat :=
  match insertRes with
  | DbResult.err _ => 500
  | DbResult.ok _ =>
      match logPriceHistoryCaught priceLogRes with
      | DbResult.err _ => 500
      | DbResult.ok _ =>
          match checkExpirationCaught sweepRes with
          | DbResult.err _ => 500
          | DbResult.ok _ => 201

/-- HTTP status produced by `PUT /api/items/:id` (server.js lines
230-293) after validation, as a function of the outcomes of the item
UPDATE, the price-history logging and the reminder sweep. -/
def putItemStatus (updateRes : DbResult Unit)
    (priceLogRes sweepRes : DbResult Unit) : Nat :=
  match updateRes with
  | DbResult.err _ => 500
  | DbResult.ok _ =>
      match logPriceHistoryCaught priceLogRes with
      | DbResult.err _ => 500
      | DbResult.ok _ =>
          match checkExpirationCaught sweepRes with
          | DbResult.err _ => 500
          | DbResult.ok _ => 200

/-- C9: for every name, brand and day, calling the logger with a price
less than or equal to zero leaves the price-history ledger completely
unchanged: no row is inserted and no existing row is modified. -/
theorem logPriceHistory_nonpos_noop (name : String) (brand : Option String)
    (price day : Int) (ledger : List PHRow) (h : price ≤ 0) :
    logPriceHistory name brand price day ledger = ledger := by
  simp [logPriceHistory, h]

/-- Witness for `logPriceHistory_nonpos_noop` at price 0. -/
theorem logPriceHistory_nonpos_noop_witness :
    logPriceHistory "Milk" (some "Acme") 0 19723 [] = [] :=
  logPriceHistory_nonpos_noop "Milk" (some "Acme") 0 19723 [] (by decide)

/-- C1: evaluation of the logger at the failing input. Two `record`
calls with the same name and day, an absent brand and two positive prices
leave TWO ledger rows for the key (name, NULL, day), the first still
holding the first price: the MySQL unique index treats NULL brands as
distinct, so `ON DUPLICATE KEY UPDATE` never fires for a no-brand row and
the claimed at-most-one-entry invariant fails. -/
theorem nullBrand_record_twice_duplicates :
    logPriceHistory "Milk" none 3 19723 (logPriceHistory "Milk" none 2 19723 [])
      = [⟨"Milk", none, 2, 19723⟩, ⟨"Milk", none, 3, 19723⟩] := by
  decide

/-- C2: the logger and the difference lookup normalize brands
compatibly. An absent or empty brand on the logger side and the literal
string "null" or the empty string on the lookup side both become the SQL
NULL marker, the null-safe comparison `<=>` accepts NULL against NULL,
and consequently a lookup with brand "null" or "" finds the ledger entry
of an item logged with an absent or empty brand. -/
theorem brandNormalizationAgrees (b : Option String) (q : String)
    (hb : b = none ∨ b = some "") (hq : q = "null" ∨ q = "") :
    dbBrandOf b = lookupNormBrand q ∧
    nullSafeEq (dbBrandOf b) (lookupNormBrand q) = true ∧
    ∀ (name : String) (price day target : Int), 0 < price → day ≤ target →
      findClosestPrice (logPriceHistory name b price day []) name
        (lookupNormBrand q) target = some ⟨name, none, price, day⟩ := by
  have hb' : dbBrandOf b = none := by
    rcases hb with h | h <;> simp [h, dbBrandOf]
  have hq' : lookupNormBrand q = none := by
    rcases hq with h | h <;> simp [h, lookupNormBrand]
  refine ⟨by rw [hb', hq'], by rw [hb', hq']; rfl, ?_⟩
  intro name price day target hp ht
  rw [logPriceHistory, if_neg (not_le.mpr hp), hb', hq']
  simp [upsertPH, findClosestPrice, List.filter_cons, phMatch, nullSafeEq,
    pickLatest, ht]

/-- Witness for `brandNormalizationAgrees`: an item logged with no brand
is found by a lookup that passes the literal string "null". -/
theorem brandNormalizationAgrees_witness :
    findClosestPrice (logPriceHistory "Milk" none 2 19723 []) "Milk"
      (lookupNormBrand "null") 19730 = some ⟨"Milk", none, 2, 19723⟩ :=
  (brandNormalizationAgrees none "null" (Or.inl rfl) (Or.inl rfl)).2.2
    "Milk" 2 19723 19730 (by decide) (by decide)

/-- C3 counterexample: the week aggregation of the code has no upper
bound, so a ledger entry recorded on a day later than "now" contributes
to `totalSpent`. With today = 7 and a single entry recorded on day 12,
the code returns 10 while the sum over the claimed closed window
[today - 7, today] is 0. -/
theorem week_total_counts_future_entries :
    totalSpentWeek [⟨"a", none, 10, 12⟩] 7 = 10 ∧
    specTotalSpentWeek [⟨"a", none, 10, 12⟩] 7 = 0 ∧
    totalSpentWeek [⟨"a", none, 10, 12⟩] 7 ≠
      specTotalSpentWeek [⟨"a", none, 10, 12⟩] 7 := by
  decide

/-- C3 (amended): for period week, `totalSpent` is the sum over entries
recorded on or after `today - 7` with no upper bound: it decomposes as
the sum over the closed window [today - 7, today] plus the sum over
entries recorded on a day strictly later than today. Entries older than
the window never contribute; entries dated after today do. -/
theorem totalSpentWeek_window_plus_future (ledger : List PHRow) (today : Int) :
    totalSpentWeek ledger today =
      specTotalSpentWeek ledger today +
      ((ledger.filter (fun r => decide (today < r.day))).map (·.price)).sum := by
  induction ledger with
  | nil => rfl
  | cons r rs ih =>
      simp only [totalSpentWeek, specTotalSpentWeek, List.filter_cons] at *
      by_cases h1 : today - 7 ≤ r.day
      · by_cases h2 : r.day ≤ today
        · have h3 : ¬ today < r.day := not_lt.mpr h2
          simp [h1, h2, h3] at *
          omega
        · have h3 : today < r.day := not_le.mp h2
          simp [h1, h2, h3] at *
          omega
      · have h3 : ¬ today < r.day := by omega
        simp [h1, h3] at *
        omega

/-- The ceiling of an integer minus a rational instant equals the integer
minus the floor of the instant: the millisecond-based `Math.ceil` day
difference of the sweep coincides with `DATEDIFF(best_by_date, CURDATE())`
for any time of day. -/
theorem diffDaysOf_eq_datediff (b : Int) (x : ℚ) :
    diffDaysOf b x = b - Int.floor x := by
  unfold diffDaysOf
  rw [show (b : ℚ) - x = -(x - (b : ℚ)) by ring, Int.ceil_neg, Int.floor_sub_int]
  ring

/-- C4: a sweep scans exactly the items whose best-by day minus the
current day is at most 3, already-expired items included, and the message
generated for an item is keyed on the sign of that day difference:
negative gives the past-due alert naming the best-by date, zero the
expires-today warning, and positive N the expires-in-N-days warning. -/
theorem sweep_selection_and_messages (items : List Item) (now : ℚ) (it : Item) :
    (it ∈ expiringItems items now ↔
      it ∈ items ∧ it.best_by_date - Int.floor now ≤ 3)
    ∧ msgFor it now =
        (if it.best_by_date - Int.floor now < 0 then
           "🚨 ALERT: " ++ it.name ++ " is PAST its best-by date ("
             ++ dayToIso it.best_by_date ++ ")."
         else if it.best_by_date - Int.floor now = 0 then
           "⚠️ WARNING: " ++ it.name ++ " expires TODAY!"
         else
           "⚠️ WARNING: " ++ it.name ++ " expires in "
             ++ toString (it.best_by_date - Int.floor now) ++ " day(s).") := by
  constructor
  · simp [expiringItems, List.mem_filter]
  · simp only [msgFor, diffDaysOf_eq_datediff]

/-- Open-reminder count after appending one reminder. -/
theorem openCount_append (l : List Reminder) (r : Reminder) (i : Nat)
    (m : String) :
    openCount (l ++ [r]) i m =
      openCount l i m + (if openMatch i m r then 1 else 0) := by
  simp only [openCount, List.filter_append]
  cases h : openMatch i m r <;> simp [List.filter_cons, h]

/-- The dedup SELECT finds an open reminder exactly when the open count
of the pair is nonzero. -/
theorem any_openMatch_iff (l : List Reminder) (i : Nat) (m : String) :
    l.any (openMatch i m) = true ↔ openCount l i m ≠ 0 := by
  unfold openCount
  rw [List.any_eq_true, Ne, List.length_eq_zero, List.filter_eq_nil_iff]
  push_neg
  simp

/-- Open-reminder count of every (item, message) pair after the insert
phase of a sweep: one fresh open reminder appears exactly when some
scanned item carries the pair and no open reminder for it survived the
purge; otherwise the count of the accumulator is untouched. -/
theorem insertReminders_openCount (now : ℚ) (i : Nat) (m : String) :
    ∀ (L : List Item) (acc : List Reminder),
      openCount (insertReminders now acc L) i m =
        if L.any (fun it => it.id == i && msgFor it now == m)
            && (openCount acc i m == 0)
        then 1 else openCount acc i m := by
  intro L
  induction L with
  | nil => intro acc; simp [insertReminders]
  | cons it rest ih =>
      intro acc
      by_cases hex : acc.any (openMatch it.id (msgFor it now)) = true
      · rw [show insertReminders now acc (it :: rest)
              = insertReminders now acc rest by simp [insertReminders, hex]]
        rw [ih acc]
        by_cases hpair : (it.id == i && msgFor it now == m) = true
        · have hi : it.id = i := by
            have := (Bool.and_eq_true _ _).mp hpair
            exact beq_iff_eq.mp this.1
          have hm : msgFor it now = m := by
            have := (Bool.and_eq_true _ _).mp hpair
            exact beq_iff_eq.mp this.2
          have hne : openCount acc i m ≠ 0 := by
            rw [← hi, ← hm]
            exact (any_openMatch_iff acc it.id (msgFor it now)).mp hex
          simp [List.any_cons, hpair, hne]
        · simp [List.any_cons, hpair]
      · have hzero : openCount acc it.id (msgFor it now) = 0 := by
          by_contra hc
          exact hex ((any_openMatch_iff acc it.id (msgFor it now)).mpr hc)
        rw [show insertReminders now acc (it :: rest)
              = insertReminders now
                  (acc ++ [⟨it.id, it.name, msgFor it now, false, now⟩]) rest
            by simp [insertReminders, hex]]
        rw [ih]
        by_cases hpair : (it.id == i && msgFor it now == m) = true
        · have hi : it.id = i := by
            have := (Bool.and_eq_true _ _).mp hpair
            exact beq_iff_eq.mp this.1
          have hm : msgFor it now = m := by
            have := (Bool.and_eq_true _ _).mp hpair
            exact beq_iff_eq.mp this.2
          have hacc0 : openCount acc i m = 0 := by rw [← hi, ← hm]; exact hzero
          have happ : openCount
              (acc ++ [⟨it.id, it.name, msgFor it now, false, now⟩]) i m
              = openCount acc i m + 1 := by
            rw [openCount_append]
            simp [openMatch, hi, hm]
          simp [List.any_cons, hpair, happ, hacc0]
        · have hmatch : openMatch i m ⟨it.id, it.name, msgFor it now, false, now⟩
              = false := by
            simp only [openMatch]
            simp only [Bool.not_false, Bool.and_true]
            exact Bool.eq_false_iff.mpr (fun hc => (Bool.eq_false_iff.mp
              (Bool.not_eq_true _ ▸ eq_false_of_ne_true hpair)) hc)
          have happ : openCount
              (acc ++ [⟨it.id, it.name, msgFor it now, false, now⟩]) i m
              = openCount acc i m := by
            rw [openCount_append, hmatch]
            simp
          simp [List.any_cons, hpair, happ]

/-- If every scanned item already has an open reminder for its message in
the accumulator, the insert phase adds nothing. -/
theorem insertReminders_skip_all (now : ℚ) :
    ∀ (L : List Item) (acc : List Reminder),
      (∀ it ∈ L, acc.any (openMatch it.id (msgFor it now)) = true) →
      insertReminders now acc L = acc := by
  intro L
  induction L with
  | nil => intro acc _; rfl
  | cons it rest ih =>
      intro acc h
      have hex := h it (List.mem_cons_self it rest)
      rw [show insertReminders now acc (it :: rest)
            = insertReminders now acc rest by simp [insertReminders, hex]]
      exact ih acc (fun x hx => h x (List.mem_cons_of_mem _ hx))

/-- The insert phase only appends: every reminder of the accumulator is
still present afterwards. -/
theorem mem_insertReminders (now : ℚ) :
    ∀ (L : List Item) (acc : List Reminder) (r : Reminder),
      r ∈ acc → r ∈ insertReminders now acc L := by
  intro L
  induction L with
  | nil => intro acc r h; simpa [insertReminders] using h
  | cons it rest ih =>
      intro acc r h
      by_cases hex : acc.any (openMatch it.id (msgFor it now)) = true
      · rw [show insertReminders now acc (it :: rest)
              = insertReminders now acc rest by simp [insertReminders, hex]]
        exact ih acc r h
      · rw [show insertReminders now acc (it :: rest)
              = insertReminders now
                  (acc ++ [⟨it.id, it.name, msgFor it now, false, now⟩]) rest
            by simp [insertReminders, hex]]
        exact ih _ r (List.mem_append_left _ h)

/-- The purge is idempotent. -/
theorem purgeReminders_idem (cutoff : ℚ) (rems : List Reminder) :
    purgeReminders cutoff (purgeReminders cutoff rems)
      = purgeReminders cutoff rems := by
  unfold purgeReminders
  exact List.filter_eq_self.mpr (fun a ha => (List.mem_filter.mp ha).2)

/-- A purge-stable reminder list stays purge-stable through the insert
phase: the inserted reminders are open, and the purge only removes closed
rows. -/
theorem purge_insertReminders (now cutoff : ℚ) :
    ∀ (L : List Item) (acc : List Reminder),
      purgeReminders cutoff acc = acc →
      purgeReminders cutoff (insertReminders now acc L)
        = insertReminders now acc L := by
  intro L
  induction L with
  | nil => intro acc h; simpa [insertReminders] using h
  | cons it rest ih =>
      intro acc h
      by_cases hex : acc.any (openMatch it.id (msgFor it now)) = true
      · rw [show insertReminders now acc (it :: rest)
              = insertReminders now acc rest by simp [insertReminders, hex]]
        exact ih acc h
      · rw [show insertReminders now acc (it :: rest)
              = insertReminders now
                  (acc ++ [⟨it.id, it.name, msgFor it now, false, now⟩]) rest
            by simp [insertReminders, hex]]
        refine ih _ ?_
        unfold purgeReminders at h ⊢
        rw [List.filter_append, h]
        simp [List.filter_cons]

/-- After a sweep, every scanned item has an open reminder carrying its
message. -/
theorem sweep_has_open (now cutoff : ℚ) (items : List Item)
    (rems : List Reminder) :
    ∀ it ∈ expiringItems items now,
      (checkExpirationAndGenerateReminders now cutoff items rems).any
        (openMatch it.id (msgFor it now)) = true := by
  intro it hit
  rw [any_openMatch_iff]
  unfold checkExpirationAndGenerateReminders
  rw [insertReminders_openCount]
  have hany : (expiringItems items now).any
      (fun x => x.id == it.id && msgFor x now == msgFor it now) = true := by
    rw [List.any_eq_true]
    exact ⟨it, hit, by simp⟩
  by_cases h0 : openCount (purgeReminders cutoff rems) it.id (msgFor it now) = 0
  · simp [hany, h0]
  · simp [hany, h0]

/-- C5: dedup and idempotence of the sweep. The open-reminder count of
every (item, message) pair after a sweep is 1 when some scanned item
carries the pair and no open reminder for it survived the purge, and is
otherwise exactly the post-purge count: an insert happens only when no
open reminder with the same item and exact message exists, and closed
reminders never block it (the count ignores them). Consequently a second
sweep run on the result with no intervening change returns the reminder
set unchanged. -/
theorem sweep_dedup_and_idempotent (now cutoff : ℚ) (items : List Item)
    (rems : List Reminder) :
    (∀ (i : Nat) (m : String),
      openCount (checkExpirationAndGenerateReminders now cutoff items rems) i m =
        if (expiringItems items now).any
              (fun it => it.id == i && msgFor it now == m)
            && (openCount (purgeReminders cutoff rems) i m == 0)
        then 1 else openCount (purgeReminders cutoff rems) i m)
    ∧ checkExpirationAndGenerateReminders now cutoff items
        (checkExpirationAndGenerateReminders now cutoff items rems)
      = checkExpirationAndGenerateReminders now cutoff items rems := by
  constructor
  · intro i m
    exact insertReminders_openCount now i m (expiringItems items now)
      (purgeReminders cutoff rems)
  · have hpurgeS : purgeReminders cutoff
        (checkExpirationAndGenerateReminders now cutoff items rems)
        = checkExpirationAndGenerateReminders now cutoff items rems :=
      purge_insertReminders now cutoff (expiringItems items now)
        (purgeReminders cutoff rems) (purgeReminders_idem cutoff rems)
    show insertReminders now (purgeReminders cutoff
        (checkExpirationAndGenerateReminders now cutoff items rems))
        (expiringItems items now)
      = checkExpirationAndGenerateReminders now cutoff items rems
    rw [hpurgeS]
    exact insertReminders_skip_all now (expiringItems items now)
      (checkExpirationAndGenerateReminders now cutoff items rems)
      (fun it hit => sweep_has_open now cutoff items rems it hit)

/-- Membership characterization of the purge: a reminder survives the
DELETE exactly when it is not both closed and created strictly before the
cutoff. -/
theorem mem_purgeReminders (cutoff : ℚ) (rems : List Reminder) (r : Reminder) :
    r ∈ purgeReminders cutoff rems ↔
      r ∈ rems ∧ ¬(r.is_closed = true ∧ r.created_at < cutoff) := by
  simp only [purgeReminders, List.mem_filter, not_and, not_lt]
  simp only [and_congr_right_iff]
  intro _
  cases h : r.is_closed <;> simp [h]

/-- C7: the purge step deletes exactly the closed reminders created
strictly before the one-month cutoff: a reminder survives iff it is not
both closed and strictly older than the cutoff, a closed reminder created
exactly at the cutoff is retained, and an open reminder is never purged
whatever its age. -/
theorem purge_deletes_exactly_old_closed (cutoff : ℚ) (rems : List Reminder)
    (r : Reminder) :
    (r ∈ purgeReminders cutoff rems ↔
      r ∈ rems ∧ ¬(r.is_closed = true ∧ r.created_at < cutoff))
    ∧ (r ∈ rems → r.is_closed = true → r.created_at = cutoff →
        r ∈ purgeReminders cutoff rems)
    ∧ (r ∈ rems → r.is_closed = false → r ∈ purgeReminders cutoff rems) := by
  have hmain := mem_purgeReminders cutoff rems r
  refine ⟨hmain, ?_, ?_⟩
  · intro hin hcl heq
    exact hmain.mpr ⟨hin, fun hc => absurd hc.2 (by rw [heq]; exact lt_irrefl _)⟩
  · intro hin hop
    exact hmain.mpr ⟨hin, fun hc => by rw [hop] at hc; exact Bool.false_ne_true hc.1⟩

/-- Witness reminder for the purge boundary: closed, created exactly at
the cutoff. -/
def boundaryRem : Reminder := ⟨1, "Milk", "msg", true, 0⟩

/-- Witness for `purge_deletes_exactly_old_closed`: a closed reminder
created exactly at the cutoff survives the purge. -/
theorem purge_boundary_witness : boundaryRem ∈ purgeReminders 0 [boundaryRem] :=
  (purge_deletes_exactly_old_closed 0 [boundaryRem] boundaryRem).2.1
    (by simp) rfl rfl

/-- C10: a sweep never deletes or modifies an open reminder: every
reminder that is open before the sweep is still present as the very same
record afterwards, and any reminder the sweep removed was closed. -/
theorem sweep_frame_open_reminders (now cutoff : ℚ) (items : List Item)
    (rems : List Reminder) (r : Reminder) :
    (r ∈ rems → r.is_closed = false →
       r ∈ checkExpirationAndGenerateReminders now cutoff items rems)
    ∧ (r ∈ rems →
       r ∉ checkExpirationAndGenerateReminders now cutoff items rems →
       r.is_closed = true) := by
  have hopen : r.is_closed = false → r ∈ rems → r ∈ purgeReminders cutoff rems := by
    intro hop hin
    exact (mem_purgeReminders cutoff rems r).mpr
      ⟨hin, fun hc => by rw [hop] at hc; exact Bool.false_ne_true hc.1⟩
  constructor
  · intro hin hop
    exact mem_insertReminders now (expiringItems items now)
      (purgeReminders cutoff rems) r (hopen hop hin)
  · intro hin hnot
    by_contra hcl
    have hop : r.is_closed = false := Bool.not_eq_true _ ▸ eq_false_of_ne_true hcl
    exact hnot (mem_insertReminders now (expiringItems items now)
      (purgeReminders cutoff rems) r (hopen hop hin))

/-- Witness reminder for the sweep frame property: an open reminder. -/
def openRem : Reminder := ⟨2, "Eggs", "msg2", false, 0⟩

/-- Witness for `sweep_frame_open_reminders`: an open reminder survives a
sweep untouched. -/
theorem sweep_frame_witness :
    openRem ∈ checkExpirationAndGenerateReminders 0 0 [] [openRem] :=
  (sweep_frame_open_reminders 0 0 [] [openRem] openRem).1 (by simp) rfl

/-- An empty result set means no ledger row passed the filter. -/
theorem pickLatest_eq_none_iff (l : List PHRow) :
    pickLatest l = none ↔ l = [] := by
  cases l with
  | nil => simp [pickLatest]
  | cons r rs =>
      simp only [pickLatest]
      cases h : pickLatest rs with
      | none => simp
      | some b => by_cases hday : b.day > r.day <;> simp [hday]

/-- `ORDER BY recorded_at DESC LIMIT 1` picks a member of the result set
whose recorded day is maximal. -/
theorem pickLatest_mem_max (l : List PHRow) (r : PHRow)
    (h : pickLatest l = some r) :
    r ∈ l ∧ ∀ x ∈ l, x.day ≤ r.day := by
  induction l generalizing r with
  | nil => simp [pickLatest] at h
  | cons a rs ih =>
      rw [pickLatest] at h
      cases hrs : pickLatest rs with
      | none =>
          rw [hrs] at h
          have har : a = r := Option.some.inj h
          have hempty : rs = [] := (pickLatest_eq_none_iff rs).mp hrs
          subst har
          subst hempty
          exact ⟨List.mem_singleton_self a, by simp⟩
      | some b =>
          rw [hrs] at h
          obtain ⟨hbmem, hbmax⟩ := ih b hrs
          by_cases hday : b.day > a.day
          · have hbr : b = r := by
              have h' : (if b.day > a.day then some b else some a) = some r := h
              rw [if_pos hday] at h'
              exact Option.some.inj h'
            subst hbr
            refine ⟨List.mem_cons_of_mem a hbmem, ?_⟩
            intro x hx
            rcases List.mem_cons.mp hx with hxa | hxr
            · subst hxa; exact le_of_lt hday
            · exact hbmax x hxr
          · have har : a = r := by
              have h' : (if b.day > a.day then some b else some a) = some r := h
              rw [if_neg hday] at h'
              exact Option.some.inj h'
            subst har
            refine ⟨List.mem_cons_self a rs, ?_⟩
            intro x hx
            rcases List.mem_cons.mp hx with hxa | hxr
            · subst hxa; exact le_refl _
            · exact le_trans (hbmax x hxr) (not_lt.mp hday)

/-- `findClosestPrice` comes back empty exactly when no ledger row
matches the item and sits on or before the target date. -/
theorem findClosestPrice_none_iff (ledger : List PHRow) (name : String)
    (dbBrand : Option String) (target : Int) :
    findClosestPrice ledger name dbBrand target = none ↔
      ∀ x ∈ ledger, ¬(phMatch name dbBrand target x = true) := by
  unfold findClosestPrice
  rw [pickLatest_eq_none_iff, List.filter_eq_nil_iff]

/-- A successful `findClosestPrice` returns a matching ledger row whose
recorded day dominates every other matching row. -/
theorem findClosestPrice_some (ledger : List PHRow) (name : String)
    (dbBrand : Option String) (target : Int) (r : PHRow)
    (h : findClosestPrice ledger name dbBrand target = some r) :
    r ∈ ledger ∧ phMatch name dbBrand target r = true ∧
      ∀ x ∈ ledger, phMatch name dbBrand target x = true → x.day ≤ r.day := by
  unfold findClosestPrice at h
  obtain ⟨hmem, hmax⟩ := pickLatest_mem_max _ r h
  refine ⟨(List.mem_filter.mp hmem).1, (List.mem_filter.mp hmem).2, ?_⟩
  intro x hx hpx
  exact hmax x (List.mem_filter.mpr ⟨hx, hpx⟩)

/-- C6: for each boundary date the difference route resolves to a ledger
entry of the (name, normalized brand) pair with the latest recorded day
on or before that date, reports the two actual recorded dates and prices
with the signed difference endPrice - startPrice, fails with a not-found
error naming the boundary and its date when no entry exists on or before
it, and when the only ledger entry precedes both dates, both boundaries
resolve to that entry and the difference is 0. -/
theorem priceDifference_boundaries (ledger : List PHRow) (name : String)
    (brandQuery : String) (startDate endDate : Int) :
    (∀ res, priceDifference ledger name brandQuery startDate endDate
        = Except.ok res →
      res.difference = res.endPrice - res.startPrice
      ∧ (∃ rs ∈ ledger,
           phMatch name (lookupNormBrand brandQuery) startDate rs = true
           ∧ (∀ x ∈ ledger,
                phMatch name (lookupNormBrand brandQuery) startDate x = true →
                x.day ≤ rs.day)
           ∧ res.startDate = rs.day ∧ res.startPrice = rs.price)
      ∧ (∃ re ∈ ledger,
           phMatch name (lookupNormBrand brandQuery) endDate re = true
           ∧ (∀ x ∈ ledger,
                phMatch name (lookupNormBrand brandQuery) endDate x = true →
                x.day ≤ re.day)
           ∧ res.endDate = re.day ∧ res.endPrice = re.price))
    ∧ ((∀ x ∈ ledger,
          ¬(phMatch name (lookupNormBrand brandQuery) startDate x = true)) →
        priceDifference ledger name brandQuery startDate endDate
          = Except.error (PDError.notFoundStart name startDate))
    ∧ ((∃ x ∈ ledger,
          phMatch name (lookupNormBrand brandQuery) startDate x = true) →
       (∀ x ∈ ledger,
          ¬(phMatch name (lookupNormBrand brandQuery) endDate x = true)) →
        priceDifference ledger name brandQuery startDate endDate
          = Except.error (PDError.notFoundEnd name endDate))
    ∧ (∀ r : PHRow, ledger = [r] →
        phMatch name (lookupNormBrand brandQuery) startDate r = true →
        phMatch name (lookupNormBrand brandQuery) endDate r = true →
        priceDifference ledger name brandQuery startDate endDate
          = Except.ok ⟨r.day, r.day, r.price, r.price, 0⟩) := by
  refine ⟨?_, ?_, ?_, ?_⟩
  · intro res hres
    simp only [priceDifference] at hres
    cases hs : findClosestPrice ledger name (lookupNormBrand brandQuery) startDate with
    | none => rw [hs] at hres; exact absurd hres (by simp)
    | some ps =>
        cases he : findClosestPrice ledger name (lookupNormBrand brandQuery) endDate with
        | none => rw [hs, he] at hres; exact absurd hres (by simp)
        | some pe =>
            rw [hs, he] at hres
            simp only [Except.ok.injEq] at hres
            obtain ⟨hsm, hsp, hsmax⟩ := findClosestPrice_some _ _ _ _ _ hs
            obtain ⟨hem, hep, hemax⟩ := findClosestPrice_some _ _ _ _ _ he
            subst hres
            refine ⟨rfl, ⟨ps, hsm, hsp, hsmax, rfl, rfl⟩,
              ⟨pe, hem, hep, hemax, rfl, rfl⟩⟩
  · intro hnone
    have hs : findClosestPrice ledger name (lookupNormBrand brandQuery) startDate
        = none := (findClosestPrice_none_iff _ _ _ _).mpr hnone
    simp only [priceDifference]
    rw [hs]
  · rintro ⟨x, hx, hpx⟩ hnone
    have he : findClosestPrice ledger name (lookupNormBrand brandQuery) endDate
        = none := (findClosestPrice_none_iff _ _ _ _).mpr hnone
    cases hs : findClosestPrice ledger name (lookupNormBrand brandQuery) startDate with
    | none =>
        exact absurd (((findClosestPrice_none_iff _ _ _ _).mp hs) x hx) (by simp [hpx])
    | some ps =>
        simp only [priceDifference]
        rw [hs, he]
  · intro r hledger hps hpe
    subst hledger
    simp only [priceDifference, findClosestPrice]
    rw [show List.filter (phMatch name (lookupNormBrand brandQuery) startDate) [r]
          = [r] by simp [List.filter_cons, hps]]
    rw [show List.filter (phMatch name (lookupNormBrand brandQuery) endDate) [r]
          = [r] by simp [List.filter_cons, hpe]]
    simp [pickLatest]

/-- Witness for `priceDifference_boundaries`: a single ledger entry
before both requested dates resolves both boundaries and yields
difference 0. -/
theorem priceDifference_boundaries_witness :
    priceDifference [⟨"Milk", none, 10, 19723⟩] "Milk" "null" 19754 19905
      = Except.ok ⟨19723, 19723, 10, 10, 0⟩ :=
  (priceDifference_boundaries [⟨"Milk", none, 10, 19723⟩] "Milk" "null"
      19754 19905).2.2.2 ⟨"Milk", none, 10, 19723⟩ rfl (by decide) (by decide)

/-- C8: for an item create or update, failures of the price-history
logging and of the reminder sweep are swallowed by their own try/catch:
the HTTP status depends only on the outcome of the item write, a
successful write answering 201 (create) or 200 (update) and a failed
write 500, whatever the two side effects did. -/
theorem sideEffectFailuresSwallowed (insertRes : DbResult Nat)
    (updateRes : DbResult Unit) (p s q t : DbResult Unit) :
    postItemStatus insertRes p s = postItemStatus insertRes q t
    ∧ (∀ idVal, insertRes = DbResult.ok idVal → postItemStatus insertRes p s = 201)
    ∧ (∀ e, insertRes = DbResult.err e → postItemStatus insertRes p s = 500)
    ∧ putItemStatus updateRes p s = putItemStatus updateRes q t
    ∧ (updateRes = DbResult.ok () → putItemStatus updateRes p s = 200)
    ∧ (∀ e, updateRes = DbResult.err e → putItemStatus updateRes p s = 500) := by
  refine ⟨?_, ?_, ?_, ?_, ?_, ?_⟩
  · cases insertRes <;> cases p <;> cases s <;> cases q <;> cases t <;> rfl
  · intro idVal h; subst h; cases p <;> cases s <;> rfl
  · intro e h; subst h; rfl
  · cases updateRes <;> cases p <;> cases s <;> cases q <;> cases t <;> rfl
  · intro h; subst h; cases p <;> cases s <;> rfl
  · intro e h; subst h; rfl

/-- Witness for `sideEffectFailuresSwallowed`: a successful insert
answers 201 even though both side effects failed, and a successful update
answers 200 likewise. -/
theorem sideEffectFailuresSwallowed_witness :
    postItemStatus (DbResult.ok 1) (DbResult.err "log failed")
      (DbResult.err "sweep failed") = 201
    ∧ putItemStatus (DbResult.ok ()) (DbResult.err "log failed")
      (DbResult.err "sweep failed") = 200 :=
  ⟨(sideEffectFailuresSwallowed (DbResult.ok 1) (DbResult.ok ())
      (DbResult.err "log failed") (DbResult.err "sweep failed")
      (DbResult.ok ()) (DbResult.ok ())).2.1 1 rfl,
   (sideEffectFailuresSwallowed (DbResult.ok 1) (DbResult.ok ())
      (DbResult.err "log failed") (DbResult.err "sweep failed")
      (DbResult.ok ()) (DbResult.ok ())).2.2.2.2.1 rfl⟩
